/-
Verification of the authentication and session-issuance core of the
Charleston Riichi Mahjong community server (src/server/src/main.rs).

The Rust handlers are embedded shallowly: the mongodb users collection
becomes a list of documents, the chrono time types become an explicit
calendar record, and ObjectId generation, uuid generation and the SMTP
transport become explicit parameters describing each collaborator's
outcome. Every definition carries a comment naming the source item it
embeds or the external collaborator it models.
-/
import Mathlib

namespace CRM

/-- Strings of the Rust program are modelled as lists of characters. -/
abbrev Str := List Char

/-- Model of character uppercasing as used by String::to_uppercase,
restricted to ASCII letters. -/
def toUpperChar (c : Char) : Char :=
  if 'a' ≤ c ∧ c ≤ 'z' then Char.ofNat (c.toNat - 32) else c

/-- Model of String::to_uppercase from the Rust standard library. -/
def strToUpper (s : Str) : Str := s.map toUpperChar

/-- Two strings are case variants when they have the same length and agree
character by character up to letter case. -/
def caseVariantB : Str → Str → Bool
  | [], [] => true
  | a :: as, b :: bs => (toUpperChar a == toUpperChar b) && caseVariantB as bs
  | _, _ => false

/-- Model of a chrono UTC date-time, kept in calendar form: this is the
information content of a DateTime at nanosecond precision. -/
structure DT where
  year : Nat
  month : Nat
  day : Nat
  hour : Nat
  minute : Nat
  second : Nat
  nanos : Nat
deriving DecidableEq

/-- Gregorian leap-year test. -/
def isLeap (y : Nat) : Bool := (y % 4 == 0 && y % 100 != 0) || y % 400 == 0

/-- Length in days of a month of the Gregorian calendar. -/
def daysInMonth (y m : Nat) : Nat :=
  if m = 2 then (if isLeap y then 29 else 28)
  else if m = 4 ∨ m = 6 ∨ m = 9 ∨ m = 11 then 30 else 31

/-- Days of the year strictly before month m, in a non-leap year. -/
def monthOffset : Nat → Nat
  | 1 => 0
  | 2 => 31
  | 3 => 59
  | 4 => 90
  | 5 => 120
  | 6 => 151
  | 7 => 181
  | 8 => 212
  | 9 => 243
  | 10 => 273
  | 11 => 304
  | _ => 334

/-- Value 1 on leap years, 0 otherwise. -/
def leapBit (y : Nat) : Nat := if isLeap y then 1 else 0

/-- Days of year y strictly before month m. -/
def doyBefore (y m : Nat) : Nat := monthOffset m + (if 3 ≤ m then leapBit y else 0)

/-- Days of the proleptic Gregorian calendar strictly before year y,
counting the date 1-01-01 as day zero: the sum of the lengths of the
years before y. -/
def daysBeforeYear : Nat → Nat
  | 0 => 0
  | 1 => 0
  | y + 2 => daysBeforeYear (y + 1) + 365 + leapBit (y + 1)

/-- Day number of a calendar date. -/
def toDays (t : DT) : Nat := daysBeforeYear t.year + doyBefore t.year t.month + (t.day - 1)

/-- Second number of a calendar date-time. -/
def toSeconds (t : DT) : Nat :=
  toDays t * 86400 + t.hour * 3600 + t.minute * 60 + t.second

/-- Nanosecond number of a calendar date-time: the instant it denotes. -/
def toNanos (t : DT) : Nat := toSeconds t * 1000000000 + t.nanos

/-- Calendar validity of a date-time record. -/
def DT.Valid (t : DT) : Prop :=
  1 ≤ t.year ∧ 1 ≤ t.month ∧ t.month ≤ 12 ∧ 1 ≤ t.day ∧
    t.day ≤ daysInMonth t.year t.month ∧ t.hour < 24 ∧ t.minute < 60 ∧
    t.second < 60 ∧ t.nanos < 1000000000

instance (t : DT) : Decidable t.Valid := by
  unfold DT.Valid
  infer_instance

/-- Validity together with a four-digit year, matching the fixed-width
rendering below. -/
def DT.RenderValid (t : DT) : Prop := t.Valid ∧ t.year ≤ 9999

instance (t : DT) : Decidable t.RenderValid := by
  unfold DT.RenderValid
  infer_instance

/-- Model of the ordering on chrono DateTime values; on the calendar
representation the chronological order is the lexicographic field order. -/
def dtLe (a b : DT) : Bool :=
  decide (a.year < b.year) || (decide (a.year = b.year) &&
   (decide (a.month < b.month) || (decide (a.month = b.month) &&
    (decide (a.day < b.day) || (decide (a.day = b.day) &&
     (decide (a.hour < b.hour) || (decide (a.hour = b.hour) &&
      (decide (a.minute < b.minute) || (decide (a.minute = b.minute) &&
       (decide (a.second < b.second) || (decide (a.second = b.second) &&
        decide (a.nanos ≤ b.nanos))))))))))))

/-- Lexicographic strict order on calendar records. -/
def dtLexLt (a b : DT) : Prop :=
  a.year < b.year ∨ (a.year = b.year ∧
   (a.month < b.month ∨ (a.month = b.month ∧
    (a.day < b.day ∨ (a.day = b.day ∧
     (a.hour < b.hour ∨ (a.hour = b.hour ∧
      (a.minute < b.minute ∨ (a.minute = b.minute ∧
       (a.second < b.second ∨ (a.second = b.second ∧
        a.nanos < b.nanos)))))))))))

/-- Model of adding Duration::minutes(1) to a chrono DateTime: one minute
with carry on the calendar representation. -/
def addOneMinute (t : DT) : DT :=
  if t.minute + 1 < 60 then { t with minute := t.minute + 1 }
  else if t.hour + 1 < 24 then { t with minute := 0, hour := t.hour + 1 }
  else if t.day + 1 ≤ daysInMonth t.year t.month then
    { t with minute := 0, hour := 0, day := t.day + 1 }
  else if t.month + 1 ≤ 12 then
    { t with minute := 0, hour := 0, day := 1, month := t.month + 1 }
  else { t with minute := 0, hour := 0, day := 1, month := 1, year := t.year + 1 }

/-- Character for a decimal digit. -/
def digitChar (n : Nat) : Char := Char.ofNat (48 + n)

/-- Two-digit zero-padded decimal rendering. -/
def pad2 (n : Nat) : Str := [digitChar (n / 10 % 10), digitChar (n % 10)]

/-- Four-digit zero-padded decimal rendering. -/
def pad4 (n : Nat) : Str :=
  [digitChar (n / 1000 % 10), digitChar (n / 100 % 10), digitChar (n / 10 % 10),
   digitChar (n % 10)]

/-- Nine-digit zero-padded decimal rendering. -/
def pad9 (n : Nat) : Str :=
  [digitChar (n / 100000000 % 10), digitChar (n / 10000000 % 10), digitChar (n / 1000000 % 10),
   digitChar (n / 100000 % 10), digitChar (n / 10000 % 10), digitChar (n / 1000 % 10),
   digitChar (n / 100 % 10), digitChar (n / 10 % 10), digitChar (n % 10)]

/-- Model of chrono to_rfc3339 on UTC values, at nanosecond precision with
a fixed nine-digit fractional part. -/
def rfc3339Render (t : DT) : Str :=
  pad4 t.year ++ ['-'] ++ pad2 t.month ++ ['-'] ++ pad2 t.day ++ ['T'] ++ pad2 t.hour ++
    [':'] ++ pad2 t.minute ++ [':'] ++ pad2 t.second ++ ['.'] ++ pad9 t.nanos ++
    ['+', '0', '0', ':', '0', '0']

/-- Decimal value of a digit character. -/
def readDigit (c : Char) : Option Nat :=
  if 48 ≤ c.toNat ∧ c.toNat ≤ 57 then some (c.toNat - 48) else none

/-- Reads exactly k digit characters, accumulating their decimal value. -/
def readFixed : Nat → Nat → Str → Option (Nat × Str)
  | 0, acc, s => some (acc, s)
  | k + 1, acc, c :: s =>
    match readDigit c with
    | some d => readFixed k (acc * 10 + d) s
    | none => none
  | _ + 1, _, [] => none

/-- Consumes one expected literal character. -/
def expectChar (c : Char) : Str → Option Str
  | x :: s => if x = c then some s else none
  | [] => none

/-- Parses the fixed six-character UTC offset suffix and requires the end
of the input. -/
def parseOffsetEnd (s : Str) : Option Unit :=
  match s with
  | ['+', '0', '0', ':', '0', '0'] => some ()
  | _ => none

/-- Parses the time-of-day part, hours onward, of an rfc3339 string. -/
def parseTimePart (y mo d : Nat) (s : Str) : Option DT :=
  match readFixed 2 0 s with
  | none => none
  | some (h, s) =>
    match expectChar ':' s with
    | none => none
    | some s =>
      match readFixed 2 0 s with
      | none => none
      | some (mi, s) =>
        match expectChar ':' s with
        | none => none
        | some s =>
          match readFixed 2 0 s with
          | none => none
          | some (sec, s) =>
            match expectChar '.' s with
            | none => none
            | some s =>
              match readFixed 9 0 s with
              | none => none
              | some (na, s) =>
                match parseOffsetEnd s with
                | none => none
                | some _ => some ⟨y, mo, d, h, mi, sec, na⟩

/-- Model of chrono parse_from_rfc3339 composed with with_timezone to UTC,
restricted to the exact shape produced by the renderer above. -/
def rfc3339Parse (s : Str) : Option DT :=
  match readFixed 4 0 s with
  | none => none
  | some (y, s) =>
    match expectChar '-' s with
    | none => none
    | some s =>
      match readFixed 2 0 s with
      | none => none
      | some (mo, s) =>
        match expectChar '-' s with
        | none => none
        | some s =>
          match readFixed 2 0 s with
          | none => none
          | some (d, s) =>
            match expectChar 'T' s with
            | none => none
            | some s => parseTimePart y mo d s

/-- The word Invalid, as used by the login handler. -/
def invalidWord : Str := ['I', 'n', 'v', 'a', 'l', 'i', 'd']

/-- The word Expired, as used by the login handler. -/
def expiredWord : Str := ['E', 'x', 'p', 'i', 'r', 'e', 'd']

/-- The message suffix, a space followed by the words authorization code. -/
def authCodeSuffix : Str :=
  [' ', 'a', 'u', 't', 'h', 'o', 'r', 'i', 'z', 'a', 't', 'i', 'o', 'n', ' ',
   'c', 'o', 'd', 'e']

/-- The acknowledgement body returned by the request-code route. -/
def sentBody : Str := ['S', 'e', 'n', 't', '.']

/-- Log line printed by send_email on a successful transport send. -/
def emailSentLog : Str :=
  ['E', 'm', 'a', 'i', 'l', ' ', 's', 'e', 'n', 't', ' ', 's', 'u', 'c', 'c',
   'e', 's', 's', 'f', 'u', 'l', 'l', 'y', '!']

/-- Log prefix printed by send_email when the transport send fails. -/
def emailFailLog : Str :=
  ['C', 'o', 'u', 'l', 'd', ' ', 'n', 'o', 't', ' ', 's', 'e', 'n', 'd', ' ',
   'e', 'm', 'a', 'i', 'l', ':', ' ']

/-- Model of an http header value: its raw bytes. -/
structure HeaderValue where
  bytes : List Nat
deriving DecidableEq

/-- Model of the to_str method of a header value: succeeds iff every byte
is visible ASCII or space. -/
def HeaderValue.to_str (v : HeaderValue) : Option Str :=
  if v.bytes.all (fun b => decide (32 ≤ b ∧ b ≤ 126)) then
    some (v.bytes.map (fun b => Char.ofNat b))
  else none

/-- Model of the incoming request as far as this core reads it: the
optional Authentication-Session-Id header. -/
structure HttpRequest where
  authSessionHeader : Option HeaderValue
deriving DecidableEq

/-- Embedding of check_authentication, main.rs lines 202 to 209, with the
comparison of the stored session id with itself exactly as written there. -/
def check_authentication (req : HttpRequest) (session_id : Option Str) : Bool :=
  match req.authSessionHeader with
  | some header =>
    let session_id_input := header.to_str
    session_id_input.isSome && (session_id == session_id)
  | none => false

/-- Embedding of struct MatchPlayer; ObjectId values are modelled as
numbers. -/
structure MatchPlayer where
  id : Option Nat
  unregistered_name : Option Str
  score : Int
deriving DecidableEq

/-- Embedding of struct Match. -/
structure Match where
  _id : Option Nat
  players : List MatchPlayer
  date : Str
deriving DecidableEq

/-- Embedding of struct User. -/
structure User where
  _id : Nat
  name : Option Str
  majsoul_username : Option Str
  discord_username : Option Str
  email : Str
  session_id : Option Str
  code : Str
  code_date : Str
  match_history : List Match
  avatar : Option Str
deriving DecidableEq

/-- Embedding of the User new constructor; the freshly generated ObjectId
is passed in as the oid argument. -/
def User.new (oid : Nat) (email code code_date : Str) (match_history : List Match) : User :=
  ⟨oid, none, none, none, email, none, code, code_date, match_history, none⟩

/-- Embedding of the User details view. -/
def User.details (user : User) : User :=
  ⟨user._id, user.name, user.majsoul_username, user.discord_username, user.email,
    none, [], [], user.match_history, user.avatar⟩

/-- Embedding of the User member_view. -/
def User.member_view (user : User) : User :=
  ⟨user._id, user.name, none, none, user.email, none, [], [], [], user.avatar⟩

/-- A stored document of the users collection: the User struct fields plus
the schemaless ip_address field written by the login update. -/
structure Doc where
  user : User
  ip_address : Option Str
deriving DecidableEq

/-- Model of find_one filtered on the email field: the first matching
document. -/
def findOne : List Doc → Str → Option Doc
  | [], _ => none
  | d :: rest, key => if d.user.email = key then some d else findOne rest key

/-- Model of update_one filtered on the email field: rewrites the first
matching document. -/
def updateOne : List Doc → Str → (Doc → Doc) → List Doc
  | [], _, _ => []
  | d :: rest, key, f =>
    if d.user.email = key then f d :: rest else d :: updateOne rest key f

/-- The update document of the send_code handler: its set clause rewrites
the code and code_date fields. -/
def setCodeFields (code code_date : Str) (d : Doc) : Doc :=
  ⟨{ d.user with code := code, code_date := code_date }, d.ip_address⟩

/-- The update document of the login handler: its set clause writes the
new session id and the reported ip address. -/
def setSessionFields (token ip : Str) (d : Doc) : Doc :=
  ⟨{ d.user with session_id := some token }, some ip⟩

/-- Database state: the users and matches collections. -/
structure Db where
  users : List Doc
  matchColl : List Match
deriving DecidableEq

/-- Model of the find on the matches collection with an elemMatch filter
on the player id. -/
def matchesFor (coll : List Match) (uid : Nat) : List Match :=
  coll.filter (fun m => m.players.any (fun p => p.id == some uid))

/-- Embedding of struct UserCredentials. -/
structure UserCredentials where
  email : Str
  code : Str
  ip_address : Str

/-- Outcome of the login handler body. -/
inductive LoginResp where
  | notFound
  | panicked
  | forbidden (message : Str)
  | ok (session_id : Str)
deriving DecidableEq

/-- Result of login: the response and the users collection afterwards. -/
structure LoginOut where
  resp : LoginResp
  users : List Doc
deriving DecidableEq

/-- Embedding of the login handler, main.rs lines 211 to 235. The current
time and the freshly generated uuid session token are explicit arguments;
panicked models the unwrap on a code_date that fails to parse. -/
def login (users : List Doc) (now : DT) (newToken : Str) (info : UserCredentials) : LoginOut :=
  match findOne users (strToUpper info.email) with
  | none => ⟨LoginResp.notFound, users⟩
  | some u =>
    match rfc3339Parse u.user.code_date with
    | none => ⟨LoginResp.panicked, users⟩
    | some codeDate =>
      let expiration := addOneMinute codeDate
      if u.user.code ≠ info.code ∨ dtLe expiration now then
        ⟨LoginResp.forbidden
            ((if u.user.code ≠ info.code then invalidWord else expiredWord) ++ authCodeSuffix),
          users⟩
      else
        ⟨LoginResp.ok newToken,
          updateOne users (strToUpper info.email)
            (setSessionFields newToken info.ip_address)⟩

/-- Collaborator outcomes determining the behaviour of send_email: the
recipient address parse, the starttls relay construction, and the result
of the transport send. -/
structure SmtpEnv where
  toAddrOk : Bool
  relayOk : Bool
  sendResult : Except Str Unit

/-- Result of send_email: a panic at one of its unwraps, or a normal
return carrying the printed log line and the returned value. -/
inductive EmailResult where
  | panicked
  | returned (log : Str) (res : Except Str Unit)

/-- Embedding of send_email, main.rs lines 260 to 283: the match on the
transport send only prints, and the function then returns Ok in every
non-panicking case. -/
def send_email (env : SmtpEnv) : EmailResult :=
  if env.toAddrOk then
    if env.relayOk then
      match env.sendResult with
      | Except.ok _ => EmailResult.returned emailSentLog (Except.ok ())
      | Except.error e => EmailResult.returned (emailFailLog ++ e) (Except.ok ())
    else EmailResult.panicked
  else EmailResult.panicked

/-- Outcome of the send_code handler. -/
inductive SendCodeResp where
  | panicked
  | ok (body : Str)
deriving DecidableEq

/-- Result of send_code: the response and the users collection afterwards. -/
structure SendCodeOut where
  resp : SendCodeResp
  users : List Doc
deriving DecidableEq

/-- Embedding of the send_code handler, main.rs lines 237 to 258: the
generated code, current time, fresh ObjectId and SMTP outcomes are
explicit arguments. The store is mutated before delivery is attempted;
the expect on the send_email result can only panic if send_email itself
returned an error value. -/
def send_code (users : List Doc) (now : DT) (code : Str) (env : SmtpEnv) (email : Str)
    (newId : Nat) : SendCodeOut :=
  let code_date := rfc3339Render now
  let key := strToUpper email
  let users2 :=
    match findOne users key with
    | some _ => updateOne users key (setCodeFields code code_date)
    | none => users ++ [⟨User.new newId key code code_date [], none⟩]
  match send_email env with
  | EmailResult.panicked => ⟨SendCodeResp.panicked, users2⟩
  | EmailResult.returned _ res =>
    match res with
    | Except.error _ => ⟨SendCodeResp.panicked, users2⟩
    | Except.ok _ => ⟨SendCodeResp.ok sentBody, users2⟩

/-- Response of the protected read handlers. -/
inductive UserResp where
  | notFound
  | forbidden
  | ok (body : User)
deriving DecidableEq

/-- Embedding of get_user_internal, main.rs lines 175 to 200. -/
def get_user_internal (db : Db) (req : HttpRequest) (email : Str)
    (include_matches : Bool) : Except UserResp User :=
  match findOne db.users (strToUpper email) with
  | none => Except.error UserResp.notFound
  | some d =>
    if check_authentication req d.user.session_id then
      if include_matches then
        Except.ok { d.user with match_history := matchesFor db.matchColl d.user._id }
      else Except.ok d.user
    else Except.error UserResp.forbidden

/-- Embedding of the get_user handler, main.rs lines 81 to 88. -/
def get_user (db : Db) (req : HttpRequest) (email : Str) : UserResp :=
  match get_user_internal db req email true with
  | Except.ok u => UserResp.ok (User.details u)
  | Except.error e => e

/-- Embedding of the get_member_list handler, main.rs lines 90 to 98: the
response body is the list of member views. -/
def get_member_list (db : Db) : List User :=
  db.users.map (fun d => User.member_view d.user)

/-- Rewrites the three secret fields of a stored document, leaving every
other field unchanged. -/
def setSecrets (m : Doc → Str × Str × Option Str) (d : Doc) : Doc :=
  ⟨{ d.user with code := (m d).1, code_date := (m d).2.1, session_id := (m d).2.2 },
    d.ip_address⟩

/-! Concrete sample values used by the witnesses. -/

/-- Sample instant used by concrete witnesses. -/
def dt0 : DT := ⟨2, 1, 1, 0, 0, 30, 0⟩

/-- A sample instant thirty seconds after dt0, inside the validity window. -/
def dt1 : DT := ⟨2, 1, 1, 0, 1, 0, 0⟩

/-- A sample instant exactly sixty seconds after dt0, on the expiration
boundary. -/
def dt2 : DT := ⟨2, 1, 1, 0, 1, 30, 0⟩

/-- A sample stored document whose code ABC was issued at dt0. -/
def doc0 : Doc :=
  ⟨⟨1, none, none, none, ['A', '@', 'B'], some ['t', 'k'], ['A', 'B', 'C'],
    rfc3339Render dt0, [], none⟩, none⟩

/-- Successful SMTP collaborator outcomes. -/
def smtpOk : SmtpEnv := ⟨true, true, Except.ok ()⟩

/-- A sample stored document with secrets, used by the C9 witness. -/
def docW : Doc := ⟨⟨1, none, none, none, ['A'], some ['t', 'k'], ['c'], ['x'], [], none⟩, none⟩

/-- Sample database for the C9 witness. -/
def dbW : Db := ⟨[docW], []⟩

/-- A request presenting a visible-ASCII header value. -/
def reqW : HttpRequest := ⟨some ⟨[116, 107]⟩⟩

/-- Expected body of the sample protected read. -/
def uW : User := ⟨1, none, none, none, ['A'], none, [], [], [], none⟩

/-! Helper lemmas about months. -/

theorem daysInMonth_le (y m : Nat) : daysInMonth y m ≤ 31 := by
  unfold daysInMonth
  split
  · split <;> omega
  · split <;> omega

theorem daysInMonth_pos (y m : Nat) : 1 ≤ daysInMonth y m := by
  unfold daysInMonth
  split
  · split <;> omega
  · split <;> omega

/-! Round-trip of the rfc3339 rendering and parsing models. -/

theorem readDigit_digitChar (d : Nat) (h : d < 10) : readDigit (digitChar d) = some d := by
  interval_cases d <;> rfl

theorem expectChar_cons (c : Char) (s : Str) : expectChar c (c :: s) = some s := by
  simp [expectChar]

theorem readFixed_pad2 (n : Nat) (h : n < 100) (s : Str) :
    readFixed 2 0 (pad2 n ++ s) = some (n, s) := by
  have h1 : n / 10 % 10 < 10 := Nat.mod_lt _ (by norm_num)
  have h2 : n % 10 < 10 := Nat.mod_lt _ (by norm_num)
  simp [pad2, readFixed, readDigit_digitChar _ h1, readDigit_digitChar _ h2]
  omega

theorem readFixed_pad4 (n : Nat) (h : n < 10000) (s : Str) :
    readFixed 4 0 (pad4 n ++ s) = some (n, s) := by
  have h1 : n / 1000 % 10 < 10 := Nat.mod_lt _ (by norm_num)
  have h2 : n / 100 % 10 < 10 := Nat.mod_lt _ (by norm_num)
  have h3 : n / 10 % 10 < 10 := Nat.mod_lt _ (by norm_num)
  have h4 : n % 10 < 10 := Nat.mod_lt _ (by norm_num)
  simp [pad4, readFixed, readDigit_digitChar _ h1, readDigit_digitChar _ h2,
    readDigit_digitChar _ h3, readDigit_digitChar _ h4]
  omega

theorem readFixed_pad9 (n : Nat) (h : n < 1000000000) (s : Str) :
    readFixed 9 0 (pad9 n ++ s) = some (n, s) := by
  have h1 : n / 100000000 % 10 < 10 := Nat.mod_lt _ (by norm_num)
  have h2 : n / 10000000 % 10 < 10 := Nat.mod_lt _ (by norm_num)
  have h3 : n / 1000000 % 10 < 10 := Nat.mod_lt _ (by norm_num)
  have h4 : n / 100000 % 10 < 10 := Nat.mod_lt _ (by norm_num)
  have h5 : n / 10000 % 10 < 10 := Nat.mod_lt _ (by norm_num)
  have h6 : n / 1000 % 10 < 10 := Nat.mod_lt _ (by norm_num)
  have h7 : n / 100 % 10 < 10 := Nat.mod_lt _ (by norm_num)
  have h8 : n / 10 % 10 < 10 := Nat.mod_lt _ (by norm_num)
  have h9 : n % 10 < 10 := Nat.mod_lt _ (by norm_num)
  simp [pad9, readFixed, readDigit_digitChar _ h1, readDigit_digitChar _ h2,
    readDigit_digitChar _ h3, readDigit_digitChar _ h4, readDigit_digitChar _ h5,
    readDigit_digitChar _ h6, readDigit_digitChar _ h7, readDigit_digitChar _ h8,
    readDigit_digitChar _ h9]
  omega

theorem rfc3339_roundtrip (t : DT) (h : t.RenderValid) :
    rfc3339Parse (rfc3339Render t) = some t := by
  obtain ⟨⟨hy, hm1, hm2, hd1, hd2, hh, hmin, hs, hn⟩, hy4⟩ := h
  have hmo : t.month < 100 := by omega
  have hda : t.day < 100 := by
    have := daysInMonth_le t.year t.month
    omega
  have hho : t.hour < 100 := by omega
  have hmi : t.minute < 100 := by omega
  have hse : t.second < 100 := by omega
  have hye : t.year < 10000 := by omega
  have hrender : rfc3339Render t =
      pad4 t.year ++ '-' :: (pad2 t.month ++ '-' :: (pad2 t.day ++ 'T' ::
        (pad2 t.hour ++ ':' :: (pad2 t.minute ++ ':' :: (pad2 t.second ++ '.' ::
          (pad9 t.nanos ++ ['+', '0', '0', ':', '0', '0'])))))) := by
    simp [rfc3339Render, List.append_assoc]
  rw [hrender]
  simp only [rfc3339Parse, parseTimePart, parseOffsetEnd, readFixed_pad4 _ hye,
    readFixed_pad2 _ hmo, readFixed_pad2 _ hda, readFixed_pad2 _ hho, readFixed_pad2 _ hmi,
    readFixed_pad2 _ hse, readFixed_pad9 _ hn, expectChar_cons]

/-! Calendar arithmetic: the lexicographic calendar order agrees with the
nanosecond instant, and adding one minute adds exactly sixty seconds. -/

theorem doyBefore_succ (y m : Nat) (h1 : 1 ≤ m) (h2 : m ≤ 11) :
    doyBefore y (m + 1) = doyBefore y m + daysInMonth y m := by
  cases hL : isLeap y <;>
    (interval_cases m <;> simp [doyBefore, monthOffset, leapBit, daysInMonth, hL])

theorem doyBefore_mono (y a b : Nat) (h1 : 1 ≤ a) (h2 : a ≤ b) (h3 : b ≤ 12) :
    doyBefore y a ≤ doyBefore y b := by
  induction b with
  | zero => omega
  | succ n ih =>
    rcases Nat.lt_or_ge a (n + 1) with hlt | hge
    · have hstep := doyBefore_succ y n (by omega) (by omega)
      have hih := ih (by omega) (by omega)
      omega
    · have ha : a = n + 1 := by omega
      rw [ha]

theorem doyBefore_add_dim_le (y m m2 : Nat) (h1 : 1 ≤ m) (hlt : m < m2) (h2 : m2 ≤ 12) :
    doyBefore y m + daysInMonth y m ≤ doyBefore y m2 := by
  rw [← doyBefore_succ y m h1 (by omega)]
  exact doyBefore_mono y (m + 1) m2 (by omega) (by omega) h2

theorem daysBeforeYear_succ (y : Nat) (h : 1 ≤ y) :
    daysBeforeYear (y + 1) = daysBeforeYear y + 365 + leapBit y := by
  match y, h with
  | n + 1, _ => rfl

theorem daysBeforeYear_mono (y y2 : Nat) (h : y ≤ y2) :
    daysBeforeYear y ≤ daysBeforeYear y2 := by
  induction y2 with
  | zero =>
    have hy : y = 0 := by omega
    rw [hy]
  | succ n ih =>
    rcases Nat.lt_or_ge y (n + 1) with hlt | hge
    · have hih := ih (by omega)
      rcases Nat.eq_zero_or_pos n with hn | hn
      · subst hn
        have hy : y = 0 := by omega
        rw [hy]
        rfl
      · have hstep := daysBeforeYear_succ n hn
        omega
    · have hy : y = n + 1 := by omega
      rw [hy]

theorem doy_le (t : DT) (hv : t.Valid) :
    doyBefore t.year t.month + (t.day - 1) ≤ 364 + leapBit t.year := by
  obtain ⟨y, mo, da, ho, mi, se, na⟩ := t
  simp only [DT.Valid] at hv
  obtain ⟨hy, hm1, hm2, hd1, hd2, _, _, _, _⟩ := hv
  cases hL : isLeap y
  · interval_cases mo <;>
      simp [doyBefore, monthOffset, leapBit, daysInMonth, hL] at hd2 ⊢ <;> omega
  · interval_cases mo <;>
      simp [doyBefore, monthOffset, leapBit, daysInMonth, hL] at hd2 ⊢ <;> omega

theorem toDays_upper (t : DT) (hv : t.Valid) :
    toDays t ≤ daysBeforeYear t.year + 364 + leapBit t.year := by
  have := doy_le t hv
  unfold toDays
  omega

theorem toDays_lower (t : DT) : daysBeforeYear t.year ≤ toDays t := by
  unfold toDays
  omega

theorem toDays_lt_toDays (a b : DT) (ha : a.Valid) (hb : b.Valid)
    (h : a.year < b.year ∨ (a.year = b.year ∧
      (a.month < b.month ∨ (a.month = b.month ∧ a.day < b.day)))) :
    toDays a < toDays b := by
  have hua := toDays_upper a ha
  have hlb := toDays_lower b
  have hsucc := daysBeforeYear_succ a.year ha.1
  obtain ⟨ha1, ha2, ha3, ha4, ha5, _, _, _, _⟩ := ha
  obtain ⟨hb1, hb2, hb3, hb4, hb5, _, _, _, _⟩ := hb
  rcases h with hy | ⟨hyeq, hrest⟩
  · have hmono := daysBeforeYear_mono (a.year + 1) b.year (by omega)
    omega
  · rcases hrest with hm | ⟨hmeq, hd⟩
    · have hdim := doyBefore_add_dim_le a.year a.month b.month ha2 hm hb3
      unfold toDays
      rw [hyeq] at hdim ha5 ⊢
      omega
    · unfold toDays
      rw [hyeq, hmeq]
      omega

theorem toNanos_lt_of_lexLt (a b : DT) (ha : a.Valid) (hb : b.Valid) (h : dtLexLt a b) :
    toNanos a < toNanos b := by
  unfold dtLexLt at h
  by_cases hdate : a.year < b.year ∨ (a.year = b.year ∧
      (a.month < b.month ∨ (a.month = b.month ∧ a.day < b.day)))
  · have hdays := toDays_lt_toDays a b ha hb hdate
    obtain ⟨_, _, _, _, _, ha6, ha7, ha8, ha9⟩ := ha
    obtain ⟨_, _, _, _, _, hb6, hb7, hb8, hb9⟩ := hb
    unfold toNanos toSeconds
    omega
  · have hy : a.year = b.year := by omega
    have hm : a.month = b.month := by omega
    have hd : a.day = b.day := by omega
    have hdeq : toDays a = toDays b := by
      unfold toDays
      rw [hy, hm, hd]
    obtain ⟨_, _, _, _, _, ha6, ha7, ha8, ha9⟩ := ha
    obtain ⟨_, _, _, _, _, hb6, hb7, hb8, hb9⟩ := hb
    unfold toNanos toSeconds
    omega

theorem toNanos_eq_of_fields (a b : DT)
    (h : a.year = b.year ∧ a.month = b.month ∧ a.day = b.day ∧ a.hour = b.hour ∧
      a.minute = b.minute ∧ a.second = b.second ∧ a.nanos = b.nanos) :
    toNanos a = toNanos b := by
  obtain ⟨h1, h2, h3, h4, h5, h6, h7⟩ := h
  unfold toNanos toSeconds toDays
  rw [h1, h2, h3, h4, h5, h6, h7]

theorem dtLe_iff_lex (a b : DT) :
    dtLe a b = true ↔ (dtLexLt a b ∨ (a.year = b.year ∧ a.month = b.month ∧
      a.day = b.day ∧ a.hour = b.hour ∧ a.minute = b.minute ∧ a.second = b.second ∧
      a.nanos = b.nanos)) := by
  unfold dtLe dtLexLt
  simp only [Bool.or_eq_true, Bool.and_eq_true, decide_eq_true_eq]
  omega

theorem lex_total (a b : DT)
    (h : ¬(dtLexLt a b ∨ (a.year = b.year ∧ a.month = b.month ∧ a.day = b.day ∧
      a.hour = b.hour ∧ a.minute = b.minute ∧ a.second = b.second ∧ a.nanos = b.nanos))) :
    dtLexLt b a := by
  unfold dtLexLt at *
  omega

theorem dtLe_iff_toNanos (a b : DT) (ha : a.Valid) (hb : b.Valid) :
    dtLe a b = true ↔ toNanos a ≤ toNanos b := by
  rw [dtLe_iff_lex]
  constructor
  · rintro (hlt | heq)
    · exact le_of_lt (toNanos_lt_of_lexLt a b ha hb hlt)
    · exact le_of_eq (toNanos_eq_of_fields a b heq)
  · intro hle
    by_contra hc
    have hgt := toNanos_lt_of_lexLt b a hb ha (lex_total a b hc)
    omega

theorem addOneMinute_valid (t : DT) (hv : t.Valid) : (addOneMinute t).Valid := by
  have hpos := daysInMonth_pos t.year t.month
  have hpos2 := daysInMonth_pos t.year (t.month + 1)
  have hpos3 := daysInMonth_pos (t.year + 1) 1
  obtain ⟨h1, h2, h3, h4, h5, h6, h7, h8, h9⟩ := hv
  unfold addOneMinute
  split
  · simp only [DT.Valid]
    omega
  · split
    · simp only [DT.Valid]
      omega
    · split
      · simp only [DT.Valid]
        omega
      · split
        · simp only [DT.Valid]
          omega
        · simp only [DT.Valid]
          omega

theorem addOneMinute_nanos (t : DT) (hv : t.Valid) :
    toNanos (addOneMinute t) = toNanos t + 60 * 1000000000 := by
  have hdle := daysInMonth_le t.year t.month
  obtain ⟨h1, h2, h3, h4, h5, h6, h7, h8, h9⟩ := hv
  unfold addOneMinute
  split
  · unfold toNanos toSeconds toDays
    simp only
    omega
  · split
    · unfold toNanos toSeconds toDays
      simp only
      omega
    · split
      · unfold toNanos toSeconds toDays
        simp only
        omega
      · split
        · unfold toNanos toSeconds toDays
          simp only
          rename_i hc1 hc2 hc3 hc4
          rw [doyBefore_succ t.year t.month h2 (by omega)]
          omega
        · rename_i hc1 hc2 hc3 hc4
          have hm12 : t.month = 12 := by omega
          have hdim12 : daysInMonth t.year 12 = 31 := by simp [daysInMonth]
          have hdoy12 : doyBefore t.year 12 = 334 + leapBit t.year := by
            simp [doyBefore, monthOffset]
          have hdoy1 : doyBefore (t.year + 1) 1 = 0 := by
            simp [doyBefore, monthOffset]
          have hsucc := daysBeforeYear_succ t.year h1
          unfold toNanos toSeconds toDays
          simp only
          rw [hm12] at h5 hc3 ⊢
          rw [hdim12] at h5 hc3
          rw [hdoy12, hdoy1]
          omega

/-! Helper lemmas about the document store. -/

theorem findOne_updateOne (l : List Doc) (key e : Str) (f : Doc → Doc)
    (hf : ∀ d, (f d).user.email = d.user.email) :
    findOne (updateOne l key f) e =
      if key = e then (findOne l e).map f else findOne l e := by
  induction l with
  | nil => simp [findOne, updateOne]
  | cons d rest ih =>
    by_cases h1 : d.user.email = key
    · by_cases h2 : key = e
      · subst h2
        simp [findOne, updateOne, h1, hf]
      · have h3 : d.user.email ≠ e := by rw [h1]; exact h2
        have h4 : (f d).user.email ≠ e := by rw [hf d, h1]; exact h2
        simp [findOne, updateOne, h1, h3, h4, h2]
    · have hupd : updateOne (d :: rest) key f = d :: updateOne rest key f := by
        simp [updateOne, h1]
      rw [hupd]
      by_cases h2 : d.user.email = e
      · have h3 : key ≠ e := fun hke => h1 (h2.trans hke.symm)
        simp [findOne, h2, h3]
      · simp [findOne, h2, ih]

theorem findOne_updateOne_self (l : List Doc) (key : Str) (f : Doc → Doc)
    (hf : ∀ d, (f d).user.email = d.user.email) :
    findOne (updateOne l key f) key = (findOne l key).map f := by
  rw [findOne_updateOne l key key f hf, if_pos rfl]

theorem findOne_updateOne_other (l : List Doc) (key e : Str) (f : Doc → Doc)
    (hf : ∀ d, (f d).user.email = d.user.email) (hne : key ≠ e) :
    findOne (updateOne l key f) e = findOne l e := by
  rw [findOne_updateOne l key e f hf, if_neg hne]

theorem setCodeFields_email (code cd : Str) (d : Doc) :
    (setCodeFields code cd d).user.email = d.user.email := rfl

theorem setSessionFields_email (tok ip : Str) (d : Doc) :
    (setSessionFields tok ip d).user.email = d.user.email := rfl

theorem setSecrets_email (m : Doc → Str × Str × Option Str) (d : Doc) :
    (setSecrets m d).user.email = d.user.email := rfl

theorem findOne_append_right (l : List Doc) (d : Doc) (key : Str)
    (h : findOne l key = none) :
    findOne (l ++ [d]) key = if d.user.email = key then some d else none := by
  induction l with
  | nil => simp [findOne]
  | cons a rest ih =>
    by_cases ha : a.user.email = key
    · simp [findOne, ha] at h
    · simp only [findOne, ha, if_false, List.cons_append, ite_false] at h ⊢
      simp [findOne, ha]
      exact ih h

theorem findOne_map (l : List Doc) (g : Doc → Doc) (key : Str)
    (hg : ∀ d, (g d).user.email = d.user.email) :
    findOne (l.map g) key = (findOne l key).map g := by
  induction l with
  | nil => simp [findOne]
  | cons d rest ih =>
    by_cases h : d.user.email = key
    · have : (g d).user.email = key := by rw [hg d]; exact h
      simp [findOne, h, this]
    · have : (g d).user.email ≠ key := by rw [hg d]; exact h
      simp [findOne, h, this, ih]

/-- The request authenticator never reads the stored session id: its
self-comparison makes its result independent of it. -/
theorem check_authentication_const (req : HttpRequest) (s1 s2 : Option Str) :
    check_authentication req s1 = check_authentication req s2 := by
  unfold check_authentication
  cases req.authSessionHeader with
  | none => rfl
  | some h => simp

/-- Case-variant strings have the same uppercase normalization. -/
theorem caseVariant_strToUpper (a b : Str) (h : caseVariantB a b = true) :
    strToUpper a = strToUpper b := by
  induction a generalizing b with
  | nil => cases b with
    | nil => rfl
    | cons x xs => simp [caseVariantB] at h
  | cons x xs ih =>
    cases b with
    | nil => simp [caseVariantB] at h
    | cons y ys =>
      simp only [caseVariantB, Bool.and_eq_true, beq_iff_eq] at h
      have hih := ih ys h.2
      simp only [strToUpper, List.map_cons] at hih ⊢
      rw [h.1, hih]

/-! Helper lemmas about the store mutation of send_code. -/

theorem send_code_users_update (users : List Doc) (now : DT) (code : Str) (env : SmtpEnv)
    (email : Str) (newId : Nat) (d : Doc)
    (hfind : findOne users (strToUpper email) = some d) :
    (send_code users now code env email newId).users =
      updateOne users (strToUpper email) (setCodeFields code (rfc3339Render now)) := by
  simp only [send_code, hfind]
  cases send_email env with
  | panicked => rfl
  | returned _ res => cases res <;> rfl

theorem send_code_users_insert (users : List Doc) (now : DT) (code : Str) (env : SmtpEnv)
    (email : Str) (newId : Nat)
    (hfind : findOne users (strToUpper email) = none) :
    (send_code users now code env email newId).users =
      users ++ [⟨User.new newId (strToUpper email) code (rfc3339Render now) [], none⟩] := by
  simp only [send_code, hfind]
  cases send_email env with
  | panicked => rfl
  | returned _ res => cases res <;> rfl

/-! The claims. -/

/-- C1: the claim states that the request authenticator returns false
without a presented token, and with one returns true iff it equals the
stored session token, a stored None never matching. The embedded code
refutes the second part: with no stored token and a presented header it
still returns true, because line 206 compares the stored session id with
itself. The first conjunct below is the part of the claim the code does
satisfy; the last two evaluate the code at the failing inputs. -/
theorem C1_check_authentication_eval :
    check_authentication ⟨none⟩ (some ['t', 'k']) = false ∧
    check_authentication ⟨some ⟨[120]⟩⟩ none = true ∧
    check_authentication ⟨some ⟨[120]⟩⟩ (some ['t', 'k']) = true := by
  decide

/-- C2 counterexample: the notification collaborator cannot send, the
transport send fails, yet the request-code handler reports the plain
Sent. acknowledgement instead of propagating a delivery failure. -/
theorem C2_counterexample :
    (send_code [] dt0 ['A', 'B', 'C'] ⟨true, true, Except.error ['b', 'o', 'o', 'm']⟩
        ['a', '@', 'b'] 7).resp = SendCodeResp.ok sentBody ∧
    (send_code [] dt0 ['A', 'B', 'C'] ⟨true, true, Except.error ['b', 'o', 'o', 'm']⟩
        ['a', '@', 'b'] 7).resp ≠ SendCodeResp.panicked := by
  decide

/-- C2 amended: the store mutation of the request-code handler does not
depend on the delivery outcome, so it is never rolled back; a failure of
the transport send step is logged and swallowed and the handler still
reports success; only a failure before the send step, here the relay
construction, aborts the request. -/
theorem C2_delivery_swallowed (users : List Doc) (now : DT) (code email msg : Str)
    (newId : Nat) (env env2 : SmtpEnv) :
    (send_code users now code env email newId).users =
      (send_code users now code env2 email newId).users ∧
    (send_code users now code ⟨true, true, Except.error msg⟩ email newId).resp =
      SendCodeResp.ok sentBody ∧
    (send_code users now code ⟨true, false, Except.ok ()⟩ email newId).resp =
      SendCodeResp.panicked := by
  refine ⟨?_, ?_, ?_⟩
  · cases hfind : findOne users (strToUpper email) with
    | some d =>
      rw [send_code_users_update users now code env email newId d hfind,
        send_code_users_update users now code env2 email newId d hfind]
    | none =>
      rw [send_code_users_insert users now code env email newId hfind,
        send_code_users_insert users now code env2 email newId hfind]
  · simp [send_code, send_email]
  · simp [send_code, send_email]

/-- C4: with an issued code on record, submitting a non-matching code
always fails with the Invalid authorization code message, whatever the
evaluation instant, so the mismatch takes precedence over expiration. -/
theorem C4_wrong_code_invalid (users : List Doc) (now t : DT) (tok : Str)
    (info : UserCredentials) (d : Doc)
    (hfind : findOne users (strToUpper info.email) = some d)
    (hne : d.user.code ≠ info.code)
    (hparse : rfc3339Parse d.user.code_date = some t) :
    (login users now tok info).resp = LoginResp.forbidden (invalidWord ++ authCodeSuffix) := by
  unfold login
  rw [hfind]
  dsimp only
  rw [hparse]
  simp [hne]

/-- C4 witness: evaluated past the expiration boundary with a wrong code,
login still reports Invalid rather than Expired. -/
theorem C4_witness :
    findOne [doc0] (strToUpper ['a', '@', 'b']) = some doc0 ∧
    doc0.user.code ≠ ['W', 'R'] ∧
    rfc3339Parse doc0.user.code_date = some dt0 ∧
    (login [doc0] dt2 ['n', 'w'] ⟨['a', '@', 'b'], ['W', 'R'], ['i', 'p']⟩).resp =
      LoginResp.forbidden (invalidWord ++ authCodeSuffix) :=
  ⟨by decide, by decide, by decide,
    C4_wrong_code_invalid [doc0] dt2 dt0 ['n', 'w'] ⟨['a', '@', 'b'], ['W', 'R'], ['i', 'p']⟩
      doc0 (by decide) (by decide) (by decide)⟩

/-- C7: when no record exists for the normalized email, issuing a code
appends a fresh record keyed by the uppercased email, holding the
generated code and the rendering of the current instant, with no session
id, no profile fields, no avatar, no ip address field and an empty match
history. -/
theorem C7_insert_fresh (users : List Doc) (now : DT) (code email : Str) (env : SmtpEnv)
    (newId : Nat)
    (hfind : findOne users (strToUpper email) = none) :
    (send_code users now code env email newId).users =
      users ++ [⟨⟨newId, none, none, none, strToUpper email, none, code,
        rfc3339Render now, [], none⟩, none⟩] ∧
    findOne (send_code users now code env email newId).users (strToUpper email) =
      some ⟨⟨newId, none, none, none, strToUpper email, none, code,
        rfc3339Render now, [], none⟩, none⟩ := by
  have h1 := send_code_users_insert users now code env email newId hfind
  constructor
  · rw [h1]
    rfl
  · rw [h1, findOne_append_right users _ _ hfind]
    simp [User.new]

/-- C7 witness: issuing a code for a fresh email creates exactly the
described record. -/
theorem C7_witness :
    findOne [] (strToUpper ['a', '@', 'b']) = none ∧
    ((send_code [] dt0 ['A', 'B', 'C'] smtpOk ['a', '@', 'b'] 7).users =
      [] ++ [⟨⟨7, none, none, none, strToUpper ['a', '@', 'b'], none, ['A', 'B', 'C'],
        rfc3339Render dt0, [], none⟩, none⟩] ∧
    findOne (send_code [] dt0 ['A', 'B', 'C'] smtpOk ['a', '@', 'b'] 7).users
        (strToUpper ['a', '@', 'b']) =
      some ⟨⟨7, none, none, none, strToUpper ['a', '@', 'b'], none, ['A', 'B', 'C'],
        rfc3339Render dt0, [], none⟩, none⟩) :=
  ⟨by decide, C7_insert_fresh [] dt0 ['A', 'B', 'C'] ['a', '@', 'b'] smtpOk 7 (by decide)⟩

/-- C3: for an identity whose stored code date parses to the instant t
and whose stored code matches the submitted one, login fails with the
Expired authorization code message exactly when the evaluation instant is
at or after t plus sixty seconds, and succeeds with the fresh token
exactly when the evaluation instant is strictly before that boundary. -/
theorem C3_code_expiration (users : List Doc) (now t : DT) (tok : Str)
    (info : UserCredentials) (d : Doc)
    (hfind : findOne users (strToUpper info.email) = some d)
    (hcode : d.user.code = info.code)
    (hparse : rfc3339Parse d.user.code_date = some t)
    (hvt : t.Valid) (hvn : now.Valid) :
    ((login users now tok info).resp = LoginResp.forbidden (expiredWord ++ authCodeSuffix) ↔
      toNanos t + 60 * 1000000000 ≤ toNanos now) ∧
    ((login users now tok info).resp = LoginResp.ok tok ↔
      toNanos now < toNanos t + 60 * 1000000000) := by
  have hvexp := addOneMinute_valid t hvt
  have hexp := addOneMinute_nanos t hvt
  have hiff := dtLe_iff_toNanos (addOneMinute t) now hvexp hvn
  rw [hexp] at hiff
  by_cases hle : dtLe (addOneMinute t) now = true
  · have hge : toNanos t + 60 * 1000000000 ≤ toNanos now := hiff.mp hle
    have hresp : (login users now tok info).resp =
        LoginResp.forbidden (expiredWord ++ authCodeSuffix) := by
      unfold login
      rw [hfind]
      dsimp only
      rw [hparse]
      dsimp only
      rw [hcode]
      simp [hle]
    rw [hresp]
    refine ⟨⟨fun _ => hge, fun _ => rfl⟩, ⟨fun hcontra => ?_, fun hlt => ?_⟩⟩
    · exact absurd hcontra (by simp)
    · exact (by omega : False).elim
  · have hle2 : dtLe (addOneMinute t) now = false := by
      revert hle
      cases dtLe (addOneMinute t) now <;> simp
    have hlt : toNanos now < toNanos t + 60 * 1000000000 := by
      rcases Nat.lt_or_ge (toNanos now) (toNanos t + 60 * 1000000000) with h | h
      · exact h
      · exact absurd (hiff.mpr h) hle
    have hresp : (login users now tok info).resp = LoginResp.ok tok := by
      unfold login
      rw [hfind]
      dsimp only
      rw [hparse]
      dsimp only
      rw [hcode]
      simp [hle2]
    rw [hresp]
    refine ⟨⟨fun hcontra => ?_, fun hge => ?_⟩, ⟨fun _ => hlt, fun _ => rfl⟩⟩
    · exact absurd hcontra (by simp)
    · exact (by omega : False).elim

/-- C3 witness: thirty seconds after issuance the correct code is
accepted, and the two equivalences hold at that instant. -/
theorem C3_witness :
    findOne [doc0] (strToUpper ['a', '@', 'b']) = some doc0 ∧
    doc0.user.code = ['A', 'B', 'C'] ∧
    rfc3339Parse doc0.user.code_date = some dt0 ∧
    dt0.Valid ∧ dt1.Valid ∧
    (((login [doc0] dt1 ['n', 'w'] ⟨['a', '@', 'b'], ['A', 'B', 'C'], ['i', 'p']⟩).resp =
        LoginResp.forbidden (expiredWord ++ authCodeSuffix) ↔
      toNanos dt0 + 60 * 1000000000 ≤ toNanos dt1) ∧
    ((login [doc0] dt1 ['n', 'w'] ⟨['a', '@', 'b'], ['A', 'B', 'C'], ['i', 'p']⟩).resp =
        LoginResp.ok ['n', 'w'] ↔
      toNanos dt1 < toNanos dt0 + 60 * 1000000000)) :=
  ⟨by decide, by decide, by decide, by decide, by decide,
    C3_code_expiration [doc0] dt1 dt0 ['n', 'w'] ⟨['a', '@', 'b'], ['A', 'B', 'C'], ['i', 'p']⟩
      doc0 (by decide) (by decide) (by decide) (by decide) (by decide)⟩

/-- C5: whenever login succeeds, the session id it returns equals the
freshly generated token, and the stored record of that identity now
carries exactly that token as its session id together with the reported
originating address, all other fields being those of the record found. -/
theorem C5_token_persisted (users : List Doc) (now : DT) (tok sid : Str)
    (info : UserCredentials)
    (h : (login users now tok info).resp = LoginResp.ok sid) :
    sid = tok ∧
    ∃ d, findOne users (strToUpper info.email) = some d ∧
      findOne (login users now tok info).users (strToUpper info.email) =
        some ⟨{ d.user with session_id := some tok }, some info.ip_address⟩ := by
  unfold login at h ⊢
  revert h
  cases hfind : findOne users (strToUpper info.email) with
  | none =>
    intro h
    simp at h
  | some d =>
    dsimp only
    cases hparse : rfc3339Parse d.user.code_date with
    | none =>
      intro h
      simp at h
    | some t =>
      dsimp only
      intro h
      split at h
      · simp at h
      · next hcond =>
        rw [if_neg hcond]
        dsimp only at h ⊢
        have hsid : sid = tok := by
          simp only [LoginResp.ok.injEq] at h
          exact h.symm
        refine ⟨hsid, d, rfl, ?_⟩
        rw [findOne_updateOne_self users _ _ (setSessionFields_email tok info.ip_address),
          hfind]
        rfl

/-- C5 witness: a successful login with fresh token nw persists nw and
the reported address on the stored record and returns nw. -/
theorem C5_witness :
    (login [doc0] dt1 ['n', 'w'] ⟨['a', '@', 'b'], ['A', 'B', 'C'], ['i', 'p']⟩).resp =
      LoginResp.ok ['n', 'w'] ∧
    (['n', 'w'] = ['n', 'w'] ∧
      ∃ d, findOne [doc0] (strToUpper ['a', '@', 'b']) = some d ∧
        findOne (login [doc0] dt1 ['n', 'w']
            ⟨['a', '@', 'b'], ['A', 'B', 'C'], ['i', 'p']⟩).users
            (strToUpper ['a', '@', 'b']) =
          some ⟨{ d.user with session_id := some ['n', 'w'] }, some ['i', 'p']⟩) :=
  ⟨by decide,
    C5_token_persisted [doc0] dt1 ['n', 'w'] ['n', 'w']
      ⟨['a', '@', 'b'], ['A', 'B', 'C'], ['i', 'p']⟩ (by decide)⟩

/-- C6: when a record already exists for the normalized email, issuing a
code rewrites only the code and code date fields of that record: session
id, profile fields, avatar, match history, identifier, email and the
stored ip address keep their previous values, and records under other
keys are untouched. -/
theorem C6_update_frame (users : List Doc) (now : DT) (code email : Str) (env : SmtpEnv)
    (newId : Nat) (d : Doc)
    (hfind : findOne users (strToUpper email) = some d) :
    (∃ d2, findOne (send_code users now code env email newId).users (strToUpper email) =
        some d2 ∧
      d2.user.code = code ∧ d2.user.code_date = rfc3339Render now ∧
      d2.user.session_id = d.user.session_id ∧ d2.user.name = d.user.name ∧
      d2.user.majsoul_username = d.user.majsoul_username ∧
      d2.user.discord_username = d.user.discord_username ∧
      d2.user.avatar = d.user.avatar ∧ d2.user.match_history = d.user.match_history ∧
      d2.user.email = d.user.email ∧ d2.user._id = d.user._id ∧
      d2.ip_address = d.ip_address) ∧
    ∀ key2, key2 ≠ strToUpper email →
      findOne (send_code users now code env email newId).users key2 = findOne users key2 := by
  have h1 := send_code_users_update users now code env email newId d hfind
  constructor
  · refine ⟨setCodeFields code (rfc3339Render now) d,
      ?_, rfl, rfl, rfl, rfl, rfl, rfl, rfl, rfl, rfl, rfl, rfl⟩
    rw [h1, findOne_updateOne_self users _ _ (setCodeFields_email code (rfc3339Render now)),
      hfind]
    rfl
  · intro key2 hk
    rw [h1, findOne_updateOne_other users _ key2 _
      (setCodeFields_email code (rfc3339Render now)) (fun he => hk he.symm)]

/-- C6 witness: refreshing the code of the sample record rewrites its
code and code date and nothing else. -/
theorem C6_witness :
    findOne [doc0] (strToUpper ['a', '@', 'b']) = some doc0 ∧
    ((∃ d2, findOne (send_code [doc0] dt1 ['N', 'E', 'W'] smtpOk ['a', '@', 'b'] 9).users
        (strToUpper ['a', '@', 'b']) = some d2 ∧
      d2.user.code = ['N', 'E', 'W'] ∧ d2.user.code_date = rfc3339Render dt1 ∧
      d2.user.session_id = doc0.user.session_id ∧ d2.user.name = doc0.user.name ∧
      d2.user.majsoul_username = doc0.user.majsoul_username ∧
      d2.user.discord_username = doc0.user.discord_username ∧
      d2.user.avatar = doc0.user.avatar ∧
      d2.user.match_history = doc0.user.match_history ∧
      d2.user.email = doc0.user.email ∧ d2.user._id = doc0.user._id ∧
      d2.ip_address = doc0.ip_address) ∧
    ∀ key2, key2 ≠ strToUpper ['a', '@', 'b'] →
      findOne (send_code [doc0] dt1 ['N', 'E', 'W'] smtpOk ['a', '@', 'b'] 9).users key2 =
        findOne [doc0] key2) :=
  ⟨by decide,
    C6_update_frame [doc0] dt1 ['N', 'E', 'W'] ['a', '@', 'b'] smtpOk 9 doc0 (by decide)⟩

/-- C8: email lookups are case-insensitive across operations: issuing a
code for an address and then authenticating with any case variant of that
address and the issued code succeeds, whenever the login evaluation
instant is strictly inside the sixty-second validity window, because both
handlers normalize the email to the same uppercase key. -/
theorem C8_case_insensitive (users : List Doc) (now now2 : DT) (code tok ip : Str)
    (env : SmtpEnv) (e e2 : Str) (newId : Nat)
    (hvar : caseVariantB e e2 = true)
    (hnow : now.RenderValid) (hnow2 : now2.Valid)
    (hwin : toNanos now2 < toNanos now + 60 * 1000000000) :
    (login (send_code users now code env e newId).users now2 tok ⟨e2, code, ip⟩).resp =
      LoginResp.ok tok := by
  have hkey : strToUpper e2 = strToUpper e := (caseVariant_strToUpper e e2 hvar).symm
  have hvexp := addOneMinute_valid now hnow.1
  have hexp := addOneMinute_nanos now hnow.1
  have hle : dtLe (addOneMinute now) now2 = false := by
    cases hb : dtLe (addOneMinute now) now2
    · rfl
    · have hletrue := (dtLe_iff_toNanos (addOneMinute now) now2 hvexp hnow2).mp hb
      rw [hexp] at hletrue
      omega
  cases hfind : findOne users (strToUpper e) with
  | some d =>
    rw [send_code_users_update users now code env e newId d hfind]
    unfold login
    dsimp only
    rw [hkey, findOne_updateOne_self users _ _ (setCodeFields_email code (rfc3339Render now)),
      hfind]
    simp [setCodeFields, rfc3339_roundtrip now hnow, hle]
  | none =>
    rw [send_code_users_insert users now code env e newId hfind]
    unfold login
    dsimp only
    rw [hkey, findOne_append_right users _ _ hfind]
    simp [User.new, rfc3339_roundtrip now hnow, hle]

/-- C8 witness: issue a code for a mixed-case address and log in with the
opposite casing inside the window. -/
theorem C8_witness :
    caseVariantB ['a', '@', 'B'] ['A', '@', 'b'] = true ∧
    dt0.RenderValid ∧ dt1.Valid ∧
    toNanos dt1 < toNanos dt0 + 60 * 1000000000 ∧
    (login (send_code [] dt0 ['A', 'B', 'C'] smtpOk ['a', '@', 'B'] 7).users dt1 ['t', 'k']
        ⟨['A', '@', 'b'], ['A', 'B', 'C'], ['i', 'p']⟩).resp = LoginResp.ok ['t', 'k'] :=
  ⟨by decide, by decide, by decide, by decide,
    C8_case_insensitive [] dt0 dt1 ['A', 'B', 'C'] ['t', 'k'] ['i', 'p'] smtpOk
      ['a', '@', 'B'] ['A', '@', 'b'] 7 (by decide) (by decide) (by decide) (by decide)⟩

/-- C9: the protected read and the member list never reveal the stored
current code, code date or session token: rewriting those secret fields
of every stored record changes neither response, and any record either
endpoint returns carries an empty code, an empty code date and no session
id. -/
theorem C9_no_secret_leak (db : Db) (req : HttpRequest) (email : Str)
    (m : Doc → Str × Str × Option Str) :
    get_user db req email = get_user ⟨db.users.map (setSecrets m), db.matchColl⟩ req email ∧
    get_member_list db = get_member_list ⟨db.users.map (setSecrets m), db.matchColl⟩ ∧
    (∀ u, get_user db req email = UserResp.ok u →
      u.code = [] ∧ u.code_date = [] ∧ u.session_id = none) ∧
    (∀ u, u ∈ get_member_list db →
      u.code = [] ∧ u.code_date = [] ∧ u.session_id = none) := by
  have hsec : ∀ d, (setSecrets m d).user.email = d.user.email := fun d => rfl
  refine ⟨?_, ?_, ?_, ?_⟩
  · unfold get_user get_user_internal
    dsimp only
    rw [findOne_map db.users (setSecrets m) (strToUpper email) hsec]
    cases hfind : findOne db.users (strToUpper email) with
    | none => rfl
    | some d =>
      dsimp only [Option.map]
      rw [check_authentication_const req (setSecrets m d).user.session_id d.user.session_id]
      by_cases hauth : check_authentication req d.user.session_id = true
      · simp only [hauth, if_true, ite_true]
        rfl
      · have hauth2 : check_authentication req d.user.session_id = false := by
          revert hauth
          cases check_authentication req d.user.session_id <;> simp
        simp only [hauth2, Bool.false_eq_true, if_false, ite_false]
  · unfold get_member_list
    dsimp only
    rw [List.map_map]
    congr 1
  · intro u h
    unfold get_user get_user_internal at h
    revert h
    cases hfind : findOne db.users (strToUpper email) with
    | none =>
      intro h
      simp at h
    | some d =>
      dsimp only
      by_cases hauth : check_authentication req d.user.session_id = true
      · simp only [hauth, if_true, ite_true]
        intro h
        simp only [UserResp.ok.injEq] at h
        rw [← h]
        exact ⟨rfl, rfl, rfl⟩
      · have hauth2 : check_authentication req d.user.session_id = false := by
          revert hauth
          cases check_authentication req d.user.session_id <;> simp
        simp only [hauth2, Bool.false_eq_true, if_false, ite_false]
        intro h
        simp at h
  · intro u hu
    unfold get_member_list at hu
    rw [List.mem_map] at hu
    obtain ⟨d, _, hd⟩ := hu
    rw [← hd]
    exact ⟨rfl, rfl, rfl⟩

/-- C9 witness: the sample protected read succeeds and its body carries
no code, code date or session id. -/
theorem C9_witness :
    get_user dbW reqW ['a'] = UserResp.ok uW ∧
    (uW.code = [] ∧ uW.code_date = [] ∧ uW.session_id = none) :=
  ⟨by decide,
    (C9_no_secret_leak dbW reqW ['a'] (fun _ => ([], [], none))).2.2.1 uW (by decide)⟩

/-- C10: every record written by the request-code handler stores as its
code date the rfc3339 rendering of the current instant, that rendering
parses back to exactly that instant, and consequently login on that
identity can never reach its parse panic. -/
theorem C10_code_date_parses (users : List Doc) (now : DT) (code email : Str)
    (env : SmtpEnv) (newId : Nat) (hv : now.RenderValid) :
    (∃ d2, findOne (send_code users now code env email newId).users (strToUpper email) =
        some d2 ∧ d2.user.code_date = rfc3339Render now ∧
        rfc3339Parse d2.user.code_date = some now) ∧
    (∀ (now2 : DT) (tok : Str) (info : UserCredentials),
      strToUpper info.email = strToUpper email →
      (login (send_code users now code env email newId).users now2 tok info).resp ≠
        LoginResp.panicked) := by
  have hrt := rfc3339_roundtrip now hv
  cases hfind : findOne users (strToUpper email) with
  | some d =>
    rw [send_code_users_update users now code env email newId d hfind]
    constructor
    · refine ⟨setCodeFields code (rfc3339Render now) d, ?_, rfl, hrt⟩
      rw [findOne_updateOne_self users _ _ (setCodeFields_email code (rfc3339Render now)),
        hfind]
      rfl
    · intro now2 tok info hinfo
      unfold login
      rw [hinfo, findOne_updateOne_self users _ _
        (setCodeFields_email code (rfc3339Render now)), hfind]
      dsimp only [Option.map, setCodeFields]
      rw [hrt]
      dsimp only
      split <;> simp
  | none =>
    rw [send_code_users_insert users now code env email newId hfind]
    have hfound : findOne
        (users ++ [⟨User.new newId (strToUpper email) code (rfc3339Render now) [], none⟩])
        (strToUpper email) =
        some ⟨User.new newId (strToUpper email) code (rfc3339Render now) [], none⟩ := by
      rw [findOne_append_right users _ _ hfind]
      simp [User.new]
    constructor
    · exact ⟨_, hfound, rfl, hrt⟩
    · intro now2 tok info hinfo
      unfold login
      rw [hinfo, hfound]
      dsimp only [User.new]
      rw [hrt]
      dsimp only
      split <;> simp

/-- C10 witness: the record created by the sample code request has a
parseable code date and the subsequent login never panics on it. -/
theorem C10_witness :
    dt0.RenderValid ∧
    ((∃ d2, findOne (send_code [] dt0 ['A', 'B', 'C'] smtpOk ['a', '@', 'b'] 7).users
        (strToUpper ['a', '@', 'b']) = some d2 ∧
        d2.user.code_date = rfc3339Render dt0 ∧
        rfc3339Parse d2.user.code_date = some dt0) ∧
    (∀ (now2 : DT) (tok : Str) (info : UserCredentials),
      strToUpper info.email = strToUpper ['a', '@', 'b'] →
      (login (send_code [] dt0 ['A', 'B', 'C'] smtpOk ['a', '@', 'b'] 7).users now2 tok
          info).resp ≠ LoginResp.panicked)) :=
  ⟨by decide,
    C10_code_date_parses [] dt0 ['A', 'B', 'C'] ['a', '@', 'b'] smtpOk 7 (by decide)⟩

end CRM
